import Mathlib

/-!
Verification of the Agency Data Gateway
(`src/agency-interface/ffi/c/agency_ffi.c`).

The C file is a thin FFI shim over the json-c library: it lazily loads a
JSON configuration file into a process-global cache, linearly scans the
configuration's `agencies` array by acronym / tier / domain, derives asset
file paths from a lowercased acronym, and shallowly validates an issue
payload for four required top-level keys.

The embedding below models:
  * JSON values (`Json`) together with the json-c accessors the C code
    uses (`json_object_object_get_ex`, `json_object_get_string`,
    `json_object_get_int`, array access, pretty serialization);
  * the ambient process state (`SysState`): the parse result of the fixed
    configuration file and a read-only file-system oracle;
  * the global cache `g_config` as an explicit `Option Json` value that is
    threaded through each entry point (each stateful function returns its
    result paired with the cache value after the call);
  * each exported `agency_*` function, translated clause by clause from
    the C source.

External collaborators (json-c's parser, `fopen`/`fread`) are modelled as
oracles/parameters; memory-allocation failure paths (`malloc`/`strdup`
returning NULL) are not modelled.
-/

set_option autoImplicit false

namespace AgencyFFI

/-- JSON values as manipulated through the json-c library.  Numbers are
modelled as mathematical integers (the configuration's `tier` fields are
integers; doubles are not used by the gateway). -/
inductive Json : Type where
  | null : Json
  | bool : Bool → Json
  | num : Int → Json
  | str : String → Json
  | arr : List Json → Json
  | obj : List (String × Json) → Json

/-- Models `json_object_object_get_ex(o, key, &value)`: on a JSON object,
yields the value stored under `key` (json-c objects have unique keys, so
first-match lookup is exact); on any non-object value the call reports
failure, modelled as `none`. -/
def jsonGetKey : Json → String → Option Json
  | Json.obj fields, key => fields.lookup key
  | _, _ => none

/-- Models `json_object_get_string` on the values the gateway reads with
it (the `acronym` and `domain` fields, strings per the configuration data
model).  Primitive non-string values are rendered; the object/array/null
cases (a serialized form, resp. NULL, in json-c) are not exercised by any
theorem below, which restrict those fields to strings. -/
def jsonGetString : Json → String
  | Json.str s => s
  | Json.num n => toString n
  | Json.bool b => cond b "true" "false"
  | _ => ""

/-- json-c's `json_object_get_int` clamps 64-bit stored integers to the
`int32_t` range of its return type. -/
def clampInt32 (n : Int) : Int :=
  if n < -2147483648 then -2147483648
  else if n > 2147483647 then 2147483647
  else n

/-- Models `json_object_get_int` on the values the gateway reads with it
(the `tier` fields, integers per the configuration data model).  json-c's
numeric-string coercion is not modelled; non-numeric values yield 0. -/
def jsonGetInt : Json → Int
  | Json.num n => clampInt32 n
  | Json.bool b => cond b 1 0
  | _ => 0

/-- Models `json_object_array_length` / `json_object_array_get_idx`: the
item sequence of an array value; a non-array value has length 0 and no
items. -/
def jsonArrayItems : Json → List Json
  | Json.arr xs => xs
  | _ => []

/-- Hexadecimal digit used by the string escaper. -/
def hexDigit (n : Nat) : Char :=
  if n < 10 then Char.ofNat (48 + n) else Char.ofNat (87 + n)

/-- JSON string escaping as performed by json-c's serializer. -/
def escapeChar (c : Char) : String :=
  if c.toNat = 34 then "\\\""
  else if c.toNat = 92 then "\\\\"
  else if c.toNat = 10 then "\\n"
  else if c.toNat = 9 then "\\t"
  else if c.toNat = 13 then "\\r"
  else if c.toNat = 8 then "\\b"
  else if c.toNat = 12 then "\\f"
  else if c.toNat < 32 then
    "\\u00" ++ String.mk [hexDigit (c.toNat / 16), hexDigit (c.toNat % 16)]
  else String.mk [c]

/-- Quoted, escaped rendering of a JSON string. -/
def quoteString (s : String) : String :=
  "\"" ++ String.join (s.data.map escapeChar) ++ "\""

/-- Indentation prefix used by the pretty serializer (two spaces per
level, as json-c's `JSON_C_TO_STRING_PRETTY`). -/
def indentOf (ind : Nat) : String :=
  String.mk (List.replicate (2 * ind) (Char.ofNat 32))

mutual

/-- Models `json_object_to_json_string_ext(o, JSON_C_TO_STRING_PRETTY)`:
a two-space-indented human-readable rendering.  No theorem below depends
on the exact bytes produced, only on which JSON value is rendered. -/
def prettyJson (ind : Nat) : Json → String
  | Json.null => "null"
  | Json.bool b => cond b "true" "false"
  | Json.num n => toString n
  | Json.str s => quoteString s
  | Json.arr [] => "[ ]"
  | Json.arr (x :: xs) =>
      "[\n" ++ prettyItems (ind + 1) (x :: xs) ++ "\n" ++ indentOf ind ++ "]"
  | Json.obj [] => "\x7b \x7d"
  | Json.obj (f :: fs) =>
      "\x7b\n" ++ prettyFields (ind + 1) (f :: fs) ++ "\n" ++ indentOf ind ++ "\x7d"

/-- Renders the comma-separated items of a JSON array. -/
def prettyItems (ind : Nat) : List Json → String
  | [] => ""
  | [x] => indentOf ind ++ prettyJson ind x
  | x :: y :: xs =>
      indentOf ind ++ prettyJson ind x ++ ",\n" ++ prettyItems ind (y :: xs)

/-- Renders the comma-separated fields of a JSON object. -/
def prettyFields (ind : Nat) : List (String × Json) → String
  | [] => ""
  | [(k, v)] => indentOf ind ++ quoteString k ++ ": " ++ prettyJson ind v
  | (k, v) :: f :: fs =>
      indentOf ind ++ quoteString k ++ ": " ++ prettyJson ind v ++ ",\n" ++
        prettyFields ind (f :: fs)

end

/-- Top-level pretty serialization (indentation level 0). -/
def prettyPrint (j : Json) : String := prettyJson 0 j

/-- Ambient process state seen by the gateway: the result of parsing the
fixed configuration file `../config/agency_data.json`
(`json_object_from_file`; `none` when the file is missing, unreadable or
malformed), and the file-system oracle used by `read_file` (`fopen` +
`fread`; `none` when the file at a path is missing or unreadable). -/
structure SysState where
  configFile : Option Json
  fs : String → Option String

/-- Models `load_config`: returns the cached configuration when the cache
`g` (the global `g_config`) is set; otherwise reads the configuration
file, caching the parse result only on success.  The first component is
the returned configuration, the second the cache value after the call. -/
def load_config (st : SysState) (g : Option Json) : Option Json × Option Json :=
  match g with
  | some c => (some c, some c)
  | none =>
    match st.configFile with
    | none => (none, none)
    | some config => (some config, some config)

/-- The per-record match test of `find_agency`'s loop: the record has an
`acronym` key and `strcmp(json_object_get_string(acronym), agency) == 0`.
Records without an `acronym` key are skipped. -/
def acronymMatches (agency : String) (r : Json) : Bool :=
  match jsonGetKey r "acronym" with
  | some acr => jsonGetString acr == agency
  | none => false

/-- Models `find_agency`: loads the configuration, fetches its `agencies`
key, and linearly scans the array for the first record whose acronym
matches; `none` when the configuration fails to load, lacks an `agencies`
key, or no record matches. -/
def find_agency (st : SysState) (g : Option Json) (agency : String) :
    Option Json × Option Json :=
  let lc := load_config st g
  (match lc.1 with
   | none => none
   | some config =>
     match jsonGetKey config "agencies" with
     | none => none
     | some agencies => (jsonArrayItems agencies).find? (acronymMatches agency),
   lc.2)

/-- Models `agency_get_context`: pretty-prints the record found by
`find_agency`; `none` when `find_agency` fails. -/
def agency_get_context (st : SysState) (g : Option Json) (agency : String) :
    Option String × Option Json :=
  let fa := find_agency st g agency
  (match fa.1 with
   | none => none
   | some agencyObj => some (prettyPrint agencyObj),
   fa.2)

/-- Directory of issue-finder assets (`ISSUE_FINDER_DIR`). -/
def ISSUE_FINDER_DIR : String := "../agency_issue_finder/agencies"

/-- Directory of research-connector assets (`CONNECTOR_DIR`). -/
def CONNECTOR_DIR : String := "../agencies"

/-- Directory of ASCII-art assets (`TEMPLATES_DIR`). -/
def TEMPLATES_DIR : String := "../templates"

/-- The C-locale `tolower` applied bytewise, as in the acronym-lowercasing
loops: `Char.toLower` maps `A`–`Z` (codes 65–90) to code + 32 and leaves
every other character unchanged, exactly as `tolower` does on ASCII. -/
def strLower (s : String) : String :=
  String.mk (s.data.map Char.toLower)

/-- Each asset getter formats its path with `snprintf` into a 512-byte
buffer: at most 511 characters of the formatted path are kept. -/
def truncatePath (s : String) : String :=
  String.mk (s.data.take 511)

/-- Models `read_file`: the file-system oracle of the ambient state. -/
def read_file (st : SysState) (file_path : String) : Option String :=
  st.fs file_path

/-- Models `agency_get_issue_finder`: lowercases the acronym, formats
`ISSUE_FINDER_DIR/<lower>_finder.py` (through `snprintf`'s 512-byte
buffer) and reads that file. -/
def agency_get_issue_finder (st : SysState) (agency : String) : Option String :=
  read_file st (truncatePath (ISSUE_FINDER_DIR ++ "/" ++ strLower agency ++ "_finder.py"))

/-- Models `agency_get_research_connector`: lowercases the acronym,
formats `CONNECTOR_DIR/<lower>_connector.py` and reads that file. -/
def agency_get_research_connector (st : SysState) (agency : String) : Option String :=
  read_file st (truncatePath (CONNECTOR_DIR ++ "/" ++ strLower agency ++ "_connector.py"))

/-- Models `agency_get_ascii_art`: lowercases the acronym, formats
`TEMPLATES_DIR/<lower>_ascii.txt` and reads that file. -/
def agency_get_ascii_art (st : SysState) (agency : String) : Option String :=
  read_file st (truncatePath (TEMPLATES_DIR ++ "/" ++ strLower agency ++ "_ascii.txt"))

/-- The acronym-collecting loop of `agency_get_all_agencies`: every
record's `acronym` value, in order; records without an `acronym` key are
skipped. -/
def collectAcronyms (l : List Json) : List Json :=
  l.filterMap (fun r => jsonGetKey r "acronym")

/-- Models `agency_get_all_agencies`: loads the configuration, collects
every record's acronym into a fresh JSON array and pretty-prints it;
`none` when the configuration fails to load or lacks an `agencies` key. -/
def agency_get_all_agencies (st : SysState) (g : Option Json) :
    Option String × Option Json :=
  let lc := load_config st g
  (match lc.1 with
   | none => none
   | some config =>
     match jsonGetKey config "agencies" with
     | none => none
     | some agencies =>
       some (prettyPrint (Json.arr (collectAcronyms (jsonArrayItems agencies)))),
   lc.2)

/-- The per-record tier test of `agency_get_agencies_by_tier`'s loop: the
record has a `tier` key and `json_object_get_int(tier) == tier`. -/
def tierMatchB (tier : Int) (r : Json) : Bool :=
  match jsonGetKey r "tier" with
  | some jt => jsonGetInt jt == tier
  | none => false

/-- The collecting loop of `agency_get_agencies_by_tier`: the acronym of
every record whose `tier` value equals the requested tier; records
without a `tier` key, with a non-matching tier, or (once matched) without
an `acronym` key are skipped. -/
def collectByTier (l : List Json) (tier : Int) : List Json :=
  l.filterMap (fun r => if tierMatchB tier r then jsonGetKey r "acronym" else none)

/-- Models `agency_get_agencies_by_tier`. -/
def agency_get_agencies_by_tier (st : SysState) (g : Option Json) (tier : Int) :
    Option String × Option Json :=
  let lc := load_config st g
  (match lc.1 with
   | none => none
   | some config =>
     match jsonGetKey config "agencies" with
     | none => none
     | some agencies =>
       some (prettyPrint (Json.arr (collectByTier (jsonArrayItems agencies) tier))),
   lc.2)

/-- The per-record domain test of `agency_get_agencies_by_domain`'s loop:
the record has a `domain` key and
`strcmp(json_object_get_string(domain), domain) == 0`. -/
def domainMatchB (domain : String) (r : Json) : Bool :=
  match jsonGetKey r "domain" with
  | some jd => jsonGetString jd == domain
  | none => false

/-- The collecting loop of `agency_get_agencies_by_domain`. -/
def collectByDomain (l : List Json) (domain : String) : List Json :=
  l.filterMap (fun r => if domainMatchB domain r then jsonGetKey r "acronym" else none)

/-- Models `agency_get_agencies_by_domain`. -/
def agency_get_agencies_by_domain (st : SysState) (g : Option Json) (domain : String) :
    Option String × Option Json :=
  let lc := load_config st g
  (match lc.1 with
   | none => none
   | some config =>
     match jsonGetKey config "agencies" with
     | none => none
     | some agencies =>
       some (prettyPrint (Json.arr (collectByDomain (jsonArrayItems agencies) domain))),
   lc.2)

/-- The four top-level keys `agency_verify_issue` requires. -/
def requiredFields : List String := ["id", "title", "description", "affected_areas"]

/-- Models `agency_verify_issue`.  json-c's `json_tokener_parse` is an
external library routine, passed in as the `parse` oracle; the gateway's
own logic is everything after the parse: `-1` on parse failure, else `1`
exactly when every required key is present at the top level (the C loop
clears `valid` and breaks at the first missing key), else `0`.  The
`agency` argument is accepted and ignored, as in the C source. -/
def agency_verify_issue (parse : String → Option Json)
    (agency issue_json : String) : Int :=
  match parse issue_json with
  | none => -1
  | some issue =>
    if requiredFields.all (fun f => (jsonGetKey issue f).isSome) then 1 else 0

/-- Decidable well-formedness check: the value stored under `key`, if
any, is a JSON string (the configuration data model's `acronym` and
`domain` fields). -/
def strFieldOk (key : String) (r : Json) : Bool :=
  match jsonGetKey r key with
  | some (Json.str _) => true
  | some _ => false
  | none => true

/-- Decidable well-formedness check: the value stored under `key`, if
any, is a JSON integer within the `int32_t` range (the configuration data
model's `tier` field). -/
def numFieldOk (key : String) (r : Json) : Bool :=
  match jsonGetKey r key with
  | some (Json.num n) => decide (-2147483648 ≤ n ∧ n ≤ 2147483647)
  | some _ => false
  | none => true

/-- Decidable check: the record has a value under `key`. -/
def hasFieldB (key : String) (r : Json) : Bool :=
  (jsonGetKey r key).isSome

/-- Concrete fixture record: HHS, tier 1, healthcare. -/
def recHHS : Json :=
  Json.obj [("acronym", Json.str "HHS"), ("tier", Json.num 1),
            ("domain", Json.str "healthcare")]

/-- Concrete fixture record sharing the HHS acronym (later duplicate). -/
def recHHS2 : Json :=
  Json.obj [("acronym", Json.str "HHS"), ("tier", Json.num 2),
            ("domain", Json.str "Healthcare")]

/-- Concrete fixture record: DOD, tier 1, defense. -/
def recDOD : Json :=
  Json.obj [("acronym", Json.str "DOD"), ("tier", Json.num 1),
            ("domain", Json.str "defense")]

/-- Concrete fixture agencies list. -/
def agenciesW : List Json := [recHHS, recHHS2, recDOD]

/-- Concrete fixture configuration. -/
def cfgW : Json := Json.obj [("agencies", Json.arr agenciesW)]

/-- Fixture state whose configuration file parses to `cfgW` and whose
file system is empty. -/
def stW : SysState := ⟨some cfgW, fun _ => none⟩

/-- Fixture state whose configuration file fails to load. -/
def stFailW : SysState := ⟨none, fun _ => none⟩

/-- Fixture issue payload containing all four required keys. -/
def issueOkW : Json :=
  Json.obj [("id", Json.num 1), ("title", Json.str "t"),
            ("description", Json.str "d"), ("affected_areas", Json.arr [])]

/-- Fixture issue payload missing two required keys. -/
def issueMissingW : Json :=
  Json.obj [("id", Json.num 1), ("title", Json.str "t")]

/-- A 600-character agency string (lowercase `a`s), long enough that the
formatted issue-finder path exceeds `snprintf`'s 512-byte buffer. -/
def longAgencyW : String := String.mk (List.replicate 600 (Char.ofNat 97))

/-- The untruncated issue-finder path derived from `longAgencyW`. -/
def longPathW : String := ISSUE_FINDER_DIR ++ "/" ++ strLower longAgencyW ++ "_finder.py"

/-- Fixture state whose file system holds a file exactly at the
untruncated long path. -/
def stTruncW : SysState :=
  ⟨none, fun p => if p = longPathW then some "x" else none⟩

/-! ## Helper lemmas -/

theorem char_toNat_ofNat {n : Nat} (h : n < 55296) : (Char.ofNat n).toNat = n := by
  have hv : n.isValidChar := Or.inl h
  rw [Char.ofNat, dif_pos hv]
  rfl

theorem char_toLower_idem (c : Char) : c.toLower.toLower = c.toLower := by
  unfold Char.toLower
  by_cases h : c.toNat ≥ 65 ∧ c.toNat ≤ 90
  · rw [if_pos h]
    have ht : (Char.ofNat (c.toNat + 32)).toNat = c.toNat + 32 :=
      char_toNat_ofNat (by omega)
    rw [if_neg (by rw [ht]; omega)]
  · rw [if_neg h, if_neg h]

theorem map_toLower_idem (l : List Char) :
    (l.map Char.toLower).map Char.toLower = l.map Char.toLower := by
  induction l with
  | nil => rfl
  | cons a t ih => simp only [List.map_cons, ih, char_toLower_idem]

theorem strLower_idem (s : String) : strLower (strLower s) = strLower s := by
  show String.mk ((s.data.map Char.toLower).map Char.toLower)
      = String.mk (s.data.map Char.toLower)
  exact congrArg String.mk (map_toLower_idem s.data)

theorem clampInt32_eq {n : Int} (h1 : -2147483648 ≤ n) (h2 : n ≤ 2147483647) :
    clampInt32 n = n := by
  unfold clampInt32
  rw [if_neg (by omega), if_neg (by omega)]

theorem acronymMatches_iff {q : String} {r : Json}
    (h : strFieldOk "acronym" r = true) :
    (acronymMatches q r = true ↔ jsonGetKey r "acronym" = some (Json.str q)) := by
  unfold acronymMatches
  unfold strFieldOk at h
  cases hk : jsonGetKey r "acronym" with
  | none => simp
  | some v =>
    rw [hk] at h
    cases v <;> simp_all [jsonGetString]

theorem tierMatchB_iff {t : Int} {r : Json} (h : numFieldOk "tier" r = true) :
    (tierMatchB t r = true ↔ jsonGetKey r "tier" = some (Json.num t)) := by
  unfold tierMatchB
  unfold numFieldOk at h
  cases hk : jsonGetKey r "tier" with
  | none => simp
  | some v =>
    rw [hk] at h
    cases v with
    | num n =>
      have hr : -2147483648 ≤ n ∧ n ≤ 2147483647 := by simpa using h
      simp [jsonGetInt, clampInt32_eq hr.1 hr.2]
    | null => simp at h
    | bool b => simp at h
    | str s => simp at h
    | arr xs => simp at h
    | obj fs => simp at h

theorem domainMatchB_iff {d : String} {r : Json}
    (h : strFieldOk "domain" r = true) :
    (domainMatchB d r = true ↔ jsonGetKey r "domain" = some (Json.str d)) := by
  unfold domainMatchB
  unfold strFieldOk at h
  cases hk : jsonGetKey r "domain" with
  | none => simp
  | some v =>
    rw [hk] at h
    cases v <;> simp_all [jsonGetString]

theorem filterMap_total_spec {α β : Type} (f : α → Option β) :
    ∀ l : List α, (∀ r ∈ l, (f r).isSome = true) →
      (l.filterMap f).length = l.length ∧
      (∀ i, i < l.length →
        ∃ r b, l[i]? = some r ∧ (l.filterMap f)[i]? = some b ∧ f r = some b) := by
  intro l
  induction l with
  | nil =>
    intro _
    exact ⟨rfl, fun i hi => absurd hi (by simp)⟩
  | cons a t ih =>
    intro h
    have ha : (f a).isSome = true := h a (List.mem_cons_self a t)
    obtain ⟨b, hb⟩ := Option.isSome_iff_exists.mp ha
    have ht := ih (fun r hr => h r (List.mem_cons_of_mem a hr))
    rw [List.filterMap_cons_some hb]
    refine ⟨by simp [ht.1], ?_⟩
    intro i hi
    cases i with
    | zero => exact ⟨a, b, by simp, by simp, hb⟩
    | succ k =>
      have hk : k < t.length := by simpa using hi
      obtain ⟨r, b2, h1, h2, h3⟩ := ht.2 k hk
      exact ⟨r, b2, by simpa using h1, by simpa using h2, h3⟩

theorem filterMap_guard {α β : Type} (p : α → Bool) (f : α → Option β)
    (l : List α) :
    l.filterMap (fun r => if p r then f r else none)
      = (l.filter p).filterMap f := by
  induction l with
  | nil => rfl
  | cons a t ih =>
    rw [List.filterMap_cons, List.filter_cons]
    cases hp : p a with
    | false => simpa [hp] using ih
    | true =>
      simp only [hp, if_true]
      rw [List.filterMap_cons]
      cases hf : f a <;> simp [hf, ih]

theorem collectByTier_eq (l : List Json) (t : Int) :
    collectByTier l t
      = (l.filter (tierMatchB t)).filterMap (fun r => jsonGetKey r "acronym") := by
  unfold collectByTier
  exact filterMap_guard (tierMatchB t) (fun r => jsonGetKey r "acronym") l

theorem collectByDomain_eq (l : List Json) (d : String) :
    collectByDomain l d
      = (l.filter (domainMatchB d)).filterMap (fun r => jsonGetKey r "acronym") := by
  unfold collectByDomain
  exact filterMap_guard (domainMatchB d) (fun r => jsonGetKey r "acronym") l

/-! ## Claim theorems -/

/-- C8: the configuration cache obeys the intended state machine.  First
conjunct: with the cache unset, `load_config` returns the configuration
file's parse result and caches exactly that (a failed load leaves the
cache unset, so the file is consulted again — possibly successfully — on
the next call, as the first conjunct applied to the later state shows).
Second conjunct: with the cache set to `c`, `load_config` returns that
same instance unchanged without consulting the file, for every ambient
state — so the file is read at most once per process unless earlier loads
failed.  Third conjunct: every gateway call made with the cache set
leaves the cache holding the same instance. -/
theorem config_cache_state_machine :
    (∀ st : SysState, load_config st none = (st.configFile, st.configFile)) ∧
    (∀ (st : SysState) (c : Json), load_config st (some c) = (some c, some c)) ∧
    (∀ (st : SysState) (c : Json) (q : String),
      (find_agency st (some c) q).2 = some c ∧
      (agency_get_context st (some c) q).2 = some c ∧
      (agency_get_all_agencies st (some c)).2 = some c ∧
      (∀ t : Int, (agency_get_agencies_by_tier st (some c) t).2 = some c) ∧
      (agency_get_agencies_by_domain st (some c) q).2 = some c) := by
  refine ⟨fun st => ?_, fun st c => rfl,
    fun st c q => ⟨rfl, rfl, rfl, fun t => rfl, rfl⟩⟩
  cases h : st.configFile <;> simp [load_config, h]

/-- C1: when the configuration loads and the records' `acronym` fields
are strings (the configuration data model), `agency_get_context q`
returns a non-null pretty-printed rendering of a full record of the
`agencies` array whose `acronym` field equals `q` (case-sensitive exact
match) whenever such a record exists; it returns null when no record's
acronym equals `q`, and null when the configuration fails to load. -/
theorem get_context_spec (st : SysState) (g : Option Json) (q : String) :
    ((load_config st g).1 = none → (agency_get_context st g q).1 = none) ∧
    (∀ config l, (load_config st g).1 = some config →
      jsonGetKey config "agencies" = some (Json.arr l) →
      (∀ r ∈ l, strFieldOk "acronym" r = true) →
      ((∃ r ∈ l, jsonGetKey r "acronym" = some (Json.str q)) →
        ∃ r, r ∈ l ∧ jsonGetKey r "acronym" = some (Json.str q) ∧
          (agency_get_context st g q).1 = some (prettyPrint r)) ∧
      ((∀ r ∈ l, jsonGetKey r "acronym" ≠ some (Json.str q)) →
        (agency_get_context st g q).1 = none)) := by
  constructor
  · intro h0
    simp [agency_get_context, find_agency, h0]
  · intro config l hc hk hwf
    have hfa : (find_agency st g q).1 = l.find? (acronymMatches q) := by
      simp [find_agency, hc, hk, jsonArrayItems]
    constructor
    · rintro ⟨r, hrmem, hracr⟩
      have hmatch : acronymMatches q r = true :=
        (acronymMatches_iff (hwf r hrmem)).mpr hracr
      have hsome : (l.find? (acronymMatches q)).isSome :=
        List.find?_isSome.mpr ⟨r, hrmem, hmatch⟩
      obtain ⟨r0, hr0⟩ := Option.isSome_iff_exists.mp hsome
      have hr0mem : r0 ∈ l := List.mem_of_find?_eq_some hr0
      have hr0match : acronymMatches q r0 = true := List.find?_some hr0
      refine ⟨r0, hr0mem, (acronymMatches_iff (hwf r0 hr0mem)).mp hr0match, ?_⟩
      simp [agency_get_context, hfa, hr0]
    · intro hnone
      have hfn : l.find? (acronymMatches q) = none := by
        rw [List.find?_eq_none]
        intro x hx hmx
        exact hnone x hx ((acronymMatches_iff (hwf x hx)).mp hmx)
      simp [agency_get_context, hfa, hfn]

/-- C1 witness: on a concrete configuration containing an `HHS` record,
`agency_get_context` returns the pretty-printed matching record. -/
theorem get_context_spec_witness :
    ∃ r, r ∈ agenciesW ∧ jsonGetKey r "acronym" = some (Json.str "HHS") ∧
      (agency_get_context stW none "HHS").1 = some (prettyPrint r) :=
  ((get_context_spec stW none "HHS").2 cfgW agenciesW rfl rfl (by decide)).1
    ⟨recHHS, List.mem_cons_self recHHS _, rfl⟩

/-- C7: `find_agency` linearly scans the `agencies` array and returns the
first record (in configuration order) whose acronym matches the query —
so with duplicate acronyms every lookup uses the earlier record — and
signals not-found (`none`) when no record matches or the configuration
fails to load; under the data model (string `acronym` fields) the match
test is exactly case-sensitive string equality of the record's `acronym`
field with the query. -/
theorem find_agency_first_match (st : SysState) (g : Option Json) (q : String) :
    ((load_config st g).1 = none → (find_agency st g q).1 = none) ∧
    (∀ config l, (load_config st g).1 = some config →
      jsonGetKey config "agencies" = some (Json.arr l) →
      (∀ r, (find_agency st g q).1 = some r →
        acronymMatches q r = true ∧
        ∃ l1 l2, l = l1 ++ r :: l2 ∧ ∀ r2 ∈ l1, acronymMatches q r2 = false) ∧
      ((∀ r ∈ l, acronymMatches q r = false) → (find_agency st g q).1 = none) ∧
      (∀ r ∈ l, strFieldOk "acronym" r = true →
        (acronymMatches q r = true ↔ jsonGetKey r "acronym" = some (Json.str q)))) := by
  constructor
  · intro h0
    simp [find_agency, h0]
  · intro config l hc hk
    have hfa : (find_agency st g q).1 = l.find? (acronymMatches q) := by
      simp [find_agency, hc, hk, jsonArrayItems]
    refine ⟨?_, ?_, fun r hmem hwf => acronymMatches_iff hwf⟩
    · intro r hr
      rw [hfa, List.find?_eq_some] at hr
      obtain ⟨hp, l1, l2, hsplit, hprev⟩ := hr
      exact ⟨hp, l1, l2, hsplit, fun r2 h2 => by simpa using hprev r2 h2⟩
    · intro hnone
      rw [hfa, List.find?_eq_none]
      intro x hx
      simp [hnone x hx]

/-- C7 witness: on a concrete configuration whose first two records share
the acronym `HHS`, `find_agency` returns the earlier record, matched with
no earlier match before it. -/
theorem find_agency_first_match_witness :
    acronymMatches "HHS" recHHS = true ∧
    ∃ l1 l2, agenciesW = l1 ++ recHHS :: l2 ∧
      ∀ r2 ∈ l1, acronymMatches "HHS" r2 = false :=
  ((find_agency_first_match stW none "HHS").2 cfgW agenciesW rfl rfl).1 recHHS rfl

/-- C3: when the configuration loads, `agency_get_all_agencies` returns a
pretty-printed JSON array of the records' `acronym` values in original
order, and — when every record carries an `acronym` key, as the data
model prescribes — that array has exactly one element per record of the
`agencies` array, position by position; a configuration-load failure
yields null. -/
theorem get_all_agencies_spec (st : SysState) (g : Option Json) :
    ((load_config st g).1 = none → (agency_get_all_agencies st g).1 = none) ∧
    (∀ config l, (load_config st g).1 = some config →
      jsonGetKey config "agencies" = some (Json.arr l) →
      (agency_get_all_agencies st g).1
        = some (prettyPrint (Json.arr (collectAcronyms l))) ∧
      ((∀ r ∈ l, hasFieldB "acronym" r = true) →
        (collectAcronyms l).length = l.length ∧
        (∀ i, i < l.length →
          ∃ r acr, l[i]? = some r ∧ (collectAcronyms l)[i]? = some acr ∧
            jsonGetKey r "acronym" = some acr))) := by
  constructor
  · intro h0
    simp [agency_get_all_agencies, h0]
  · intro config l hc hk
    constructor
    · simp [agency_get_all_agencies, hc, hk, jsonArrayItems]
    · intro hacr
      exact filterMap_total_spec _ l (fun r hr => hacr r hr)

/-- C3 witness: on the concrete three-record configuration, the rendered
acronym list has the same cardinality as the `agencies` array. -/
theorem get_all_agencies_spec_witness :
    (agency_get_all_agencies stW none).1
      = some (prettyPrint (Json.arr (collectAcronyms agenciesW))) ∧
    (collectAcronyms agenciesW).length = agenciesW.length :=
  ⟨((get_all_agencies_spec stW none).2 cfgW agenciesW rfl rfl).1,
   (((get_all_agencies_spec stW none).2 cfgW agenciesW rfl rfl).2 (by decide)).1⟩

/-- C9: the result of `agency_verify_issue` does not depend on its
`agency` argument — the parameter is ignored by the implementation. -/
theorem verify_issue_agency_irrelevant
    (parse : String → Option Json) (a1 a2 j : String) :
    agency_verify_issue parse a1 j = agency_verify_issue parse a2 j := rfl

/-- C10: the three asset getters are case-insensitive in their agency
argument — each lowercases the acronym before deriving the file path, and
lowercasing is idempotent — unlike `agency_get_context`, which compares
acronyms case-sensitively, as the final existential shows on a concrete
configuration containing the acronym `HHS`. -/
theorem asset_getters_case_insensitive :
    (∀ (st : SysState) (a : String),
      agency_get_issue_finder st a = agency_get_issue_finder st (strLower a) ∧
      agency_get_research_connector st a
        = agency_get_research_connector st (strLower a) ∧
      agency_get_ascii_art st a = agency_get_ascii_art st (strLower a)) ∧
    (∃ (st : SysState) (g : Option Json) (a : String),
      (agency_get_context st g a).1 ≠ (agency_get_context st g (strLower a)).1) := by
  constructor
  · intro st a
    refine ⟨?_, ?_, ?_⟩ <;>
      simp only [agency_get_issue_finder, agency_get_research_connector,
        agency_get_ascii_art, strLower_idem]
  · exact ⟨stW, none, "HHS", fun hEq => Option.noConfusion hEq⟩

/-- C4: when the configuration loads, `agency_get_agencies_by_tier t`
returns a pretty-printed JSON array collecting, in original order, the
acronyms of exactly the records whose tier matches `t`; under the data
model (integer `tier` fields, every record carrying an `acronym`) the
match test is exactly "the `tier` field equals `t`" and the collected
array pairs up position by position with the matching records.  No range
validation is performed on `t`: a `t` matching no record yields the
rendering of an empty array, not null; only configuration-load failure
yields null. -/
theorem get_agencies_by_tier_spec (st : SysState) (g : Option Json) (t : Int) :
    ((load_config st g).1 = none →
      (agency_get_agencies_by_tier st g t).1 = none) ∧
    (∀ config l, (load_config st g).1 = some config →
      jsonGetKey config "agencies" = some (Json.arr l) →
      (agency_get_agencies_by_tier st g t).1
        = some (prettyPrint (Json.arr (collectByTier l t))) ∧
      ((∀ r ∈ l, tierMatchB t r = false) →
        (agency_get_agencies_by_tier st g t).1
          = some (prettyPrint (Json.arr []))) ∧
      ((∀ r ∈ l, numFieldOk "tier" r = true) →
        ∀ r ∈ l,
          (tierMatchB t r = true ↔ jsonGetKey r "tier" = some (Json.num t))) ∧
      ((∀ r ∈ l, hasFieldB "acronym" r = true) →
        (collectByTier l t).length = (l.filter (tierMatchB t)).length ∧
        (∀ i, i < (l.filter (tierMatchB t)).length →
          ∃ r acr, (l.filter (tierMatchB t))[i]? = some r ∧
            (collectByTier l t)[i]? = some acr ∧
            jsonGetKey r "acronym" = some acr))) := by
  constructor
  · intro h0
    simp [agency_get_agencies_by_tier, h0]
  · intro config l hc hk
    have hres : (agency_get_agencies_by_tier st g t).1
        = some (prettyPrint (Json.arr (collectByTier l t))) := by
      simp [agency_get_agencies_by_tier, hc, hk, jsonArrayItems]
    refine ⟨hres, ?_, fun hwf r hr => tierMatchB_iff (hwf r hr), ?_⟩
    · intro hnone
      have hfe : l.filter (tierMatchB t) = [] :=
        List.filter_eq_nil_iff.mpr (fun r hr => by simp [hnone r hr])
      rw [hres, collectByTier_eq, hfe, List.filterMap_nil]
    · intro hacr
      rw [collectByTier_eq]
      exact filterMap_total_spec _ (l.filter (tierMatchB t))
        (fun r hr => hacr r (List.mem_of_mem_filter hr))

/-- C4 witness: on the concrete configuration, tier 1 renders the
collected acronyms and tier 99 (matching nothing) renders an empty array,
not null. -/
theorem get_agencies_by_tier_spec_witness :
    (agency_get_agencies_by_tier stW none 1).1
      = some (prettyPrint (Json.arr (collectByTier agenciesW 1))) ∧
    (agency_get_agencies_by_tier stW none 99).1
      = some (prettyPrint (Json.arr [])) :=
  ⟨((get_agencies_by_tier_spec stW none 1).2 cfgW agenciesW rfl rfl).1,
   ((get_agencies_by_tier_spec stW none 99).2 cfgW agenciesW rfl rfl).2.1
     (by decide)⟩

/-- C5: when the configuration loads, `agency_get_agencies_by_domain d`
returns a pretty-printed JSON array collecting, in original order, the
acronyms of exactly the records whose domain matches `d`; under the data
model (string `domain` fields, every record carrying an `acronym`) the
match test is exactly case-sensitive string equality of the `domain`
field with `d`, and the collected array pairs up position by position
with the matching records.  A `d` matching no record yields the rendering
of an empty array; only configuration-load failure yields null. -/
theorem get_agencies_by_domain_spec (st : SysState) (g : Option Json) (d : String) :
    ((load_config st g).1 = none →
      (agency_get_agencies_by_domain st g d).1 = none) ∧
    (∀ config l, (load_config st g).1 = some config →
      jsonGetKey config "agencies" = some (Json.arr l) →
      (agency_get_agencies_by_domain st g d).1
        = some (prettyPrint (Json.arr (collectByDomain l d))) ∧
      ((∀ r ∈ l, domainMatchB d r = false) →
        (agency_get_agencies_by_domain st g d).1
          = some (prettyPrint (Json.arr []))) ∧
      ((∀ r ∈ l, strFieldOk "domain" r = true) →
        ∀ r ∈ l,
          (domainMatchB d r = true ↔ jsonGetKey r "domain" = some (Json.str d))) ∧
      ((∀ r ∈ l, hasFieldB "acronym" r = true) →
        (collectByDomain l d).length = (l.filter (domainMatchB d)).length ∧
        (∀ i, i < (l.filter (domainMatchB d)).length →
          ∃ r acr, (l.filter (domainMatchB d))[i]? = some r ∧
            (collectByDomain l d)[i]? = some acr ∧
            jsonGetKey r "acronym" = some acr))) := by
  constructor
  · intro h0
    simp [agency_get_agencies_by_domain, h0]
  · intro config l hc hk
    have hres : (agency_get_agencies_by_domain st g d).1
        = some (prettyPrint (Json.arr (collectByDomain l d))) := by
      simp [agency_get_agencies_by_domain, hc, hk, jsonArrayItems]
    refine ⟨hres, ?_, fun hwf r hr => domainMatchB_iff (hwf r hr), ?_⟩
    · intro hnone
      have hfe : l.filter (domainMatchB d) = [] :=
        List.filter_eq_nil_iff.mpr (fun r hr => by simp [hnone r hr])
      rw [hres, collectByDomain_eq, hfe, List.filterMap_nil]
    · intro hacr
      rw [collectByDomain_eq]
      exact filterMap_total_spec _ (l.filter (domainMatchB d))
        (fun r hr => hacr r (List.mem_of_mem_filter hr))

/-- C5 witness: on the concrete configuration — which contains both a
`healthcare` and a `Healthcare` record — the domain query `healthcare`
renders its collected acronyms, and the match test coincides with
case-sensitive equality of the `domain` field. -/
theorem get_agencies_by_domain_spec_witness :
    (agency_get_agencies_by_domain stW none "healthcare").1
      = some (prettyPrint (Json.arr (collectByDomain agenciesW "healthcare"))) ∧
    (∀ r ∈ agenciesW,
      (domainMatchB "healthcare" r = true ↔
        jsonGetKey r "domain" = some (Json.str "healthcare"))) :=
  ⟨((get_agencies_by_domain_spec stW none "healthcare").2 cfgW agenciesW
      rfl rfl).1,
   ((get_agencies_by_domain_spec stW none "healthcare").2 cfgW agenciesW
      rfl rfl).2.2.1 (by decide)⟩

/-- C2: `agency_verify_issue` is a three-way classifier of the issue
text: a parse failure yields the error signal `-1`; a successful parse
with all four required top-level keys present yields `1` (valid) for
every such payload, with no constraint on the keys' values, types or
nesting; a successful parse with at least one required key missing yields
`0` (invalid); and the three signals are pairwise distinct. -/
theorem verify_issue_spec (parse : String → Option Json) (a j : String) :
    (parse j = none → agency_verify_issue parse a j = -1) ∧
    (∀ issue, parse j = some issue →
      ((∀ f ∈ requiredFields, (jsonGetKey issue f).isSome = true) →
        agency_verify_issue parse a j = 1) ∧
      ((∃ f ∈ requiredFields, (jsonGetKey issue f).isSome = false) →
        agency_verify_issue parse a j = 0)) ∧
    ((-1 : Int) ≠ 0 ∧ (-1 : Int) ≠ 1 ∧ (0 : Int) ≠ 1) := by
  refine ⟨?_, ?_, by decide⟩
  · intro hp
    simp [agency_verify_issue, hp]
  · intro issue hp
    constructor
    · intro hall
      have : requiredFields.all (fun f => (jsonGetKey issue f).isSome) = true :=
        List.all_eq_true.mpr (fun f hf => hall f hf)
      simp [agency_verify_issue, hp, this]
    · rintro ⟨f, hfmem, hfnone⟩
      have : requiredFields.all (fun f => (jsonGetKey issue f).isSome) = false :=
        List.all_eq_false.mpr ⟨f, hfmem, by simp [hfnone]⟩
      simp [agency_verify_issue, hp, this]

/-- C2 witness: concrete parse oracles and payloads exercising all three
outcomes — unparsable text yields -1, a payload with all four keys yields
1, a payload missing keys yields 0. -/
theorem verify_issue_spec_witness :
    agency_verify_issue (fun _ => none) "HHS" "not json" = -1 ∧
    agency_verify_issue (fun _ => some issueOkW) "HHS" "ok" = 1 ∧
    agency_verify_issue (fun _ => some issueMissingW) "HHS" "missing" = 0 :=
  ⟨(verify_issue_spec (fun _ => none) "HHS" "not json").1 rfl,
   ((verify_issue_spec (fun _ => some issueOkW) "HHS" "ok").2.1
      issueOkW rfl).1 (by decide),
   ((verify_issue_spec (fun _ => some issueMissingW) "HHS" "missing").2.1
      issueMissingW rfl).2 ⟨"description", by decide, by decide⟩⟩

theorem string_data_append (s1 s2 : String) :
    (s1 ++ s2).data = s1.data ++ s2.data := by
  cases s1
  cases s2
  rfl

theorem strLower_data (s : String) :
    (strLower s).data = s.data.map Char.toLower := rfl

theorem truncatePath_eq {s : String} (h : s.data.length ≤ 511) :
    truncatePath s = s := by
  cases s with
  | mk d =>
    show String.mk (d.take 511) = String.mk d
    rw [List.take_of_length_le h]

set_option maxRecDepth 8192

/-- C6 counterexample: the claim that each asset getter reads the file at
the full concatenation `dir/<lowered-acronym><suffix>` fails for long
agency strings, because `snprintf` formats the path into a 512-byte
buffer and silently truncates.  With a 600-character acronym the file
system holds a file at the full concatenated path, yet
`agency_get_issue_finder` returns null: it reads the truncated path. -/
theorem get_issue_finder_counterexample :
    stTruncW.fs (ISSUE_FINDER_DIR ++ "/" ++ strLower longAgencyW ++ "_finder.py")
      = some "x" ∧
    agency_get_issue_finder stTruncW longAgencyW = none := by
  constructor
  · show (if longPathW = longPathW then some "x" else none) = some "x"
    simp
  · show (if truncatePath longPathW = longPathW then some "x" else none) = none
    rw [if_neg]
    intro hEq
    have hlen := congrArg (fun s => s.data.length) hEq
    have h600 : longPathW.data.length = 642 := by decide
    have h511 : (truncatePath longPathW).data.length = 511 := by decide
    simp only [h511, h600] at hlen
    exact absurd hlen (by decide)

/-- C6 (amended): each asset getter derives a file path by lowercasing
the agency string and concatenating the fixed directory and fixed suffix
(`_finder.py`, `_connector.py`, `_ascii.txt`), truncated by `snprintf` to
its 512-byte buffer (at most 511 path characters), and returns the entire
contents of the file at that path, or null when it is missing or
unreadable.  No existence check is performed on the agency record, and
the result depends only on the file system, never on the configuration
contents (fourth conjunct).  For agency strings short enough that the
formatted path fits the buffer — in particular any string of at most 469
characters, even for the longest directory — the path is the untruncated
concatenation (fifth conjunct). -/
theorem asset_getters_spec (st : SysState) (a : String) :
    agency_get_issue_finder st a
      = st.fs (truncatePath (ISSUE_FINDER_DIR ++ "/" ++ strLower a ++ "_finder.py")) ∧
    agency_get_research_connector st a
      = st.fs (truncatePath (CONNECTOR_DIR ++ "/" ++ strLower a ++ "_connector.py")) ∧
    agency_get_ascii_art st a
      = st.fs (truncatePath (TEMPLATES_DIR ++ "/" ++ strLower a ++ "_ascii.txt")) ∧
    (∀ st2 : SysState, st.fs = st2.fs →
      agency_get_issue_finder st a = agency_get_issue_finder st2 a ∧
      agency_get_research_connector st a = agency_get_research_connector st2 a ∧
      agency_get_ascii_art st a = agency_get_ascii_art st2 a) ∧
    (a.data.length ≤ 469 →
      agency_get_issue_finder st a
        = st.fs (ISSUE_FINDER_DIR ++ "/" ++ strLower a ++ "_finder.py") ∧
      agency_get_research_connector st a
        = st.fs (CONNECTOR_DIR ++ "/" ++ strLower a ++ "_connector.py") ∧
      agency_get_ascii_art st a
        = st.fs (TEMPLATES_DIR ++ "/" ++ strLower a ++ "_ascii.txt")) := by
  refine ⟨rfl, rfl, rfl, ?_, ?_⟩
  · intro st2 hfs
    refine ⟨?_, ?_, ?_⟩ <;>
      simp [agency_get_issue_finder, agency_get_research_connector,
        agency_get_ascii_art, read_file, hfs]
  · intro hlen
    have hpath : ∀ (dir suf : String), dir.data.length + 1 + suf.data.length ≤ 42 →
        (dir ++ "/" ++ strLower a ++ suf).data.length ≤ 511 := by
      intro dir suf hds
      rw [string_data_append, string_data_append, string_data_append]
      simp only [List.length_append, strLower_data, List.length_map,
        List.length_cons, List.length_nil]
      omega
    have h1 : ISSUE_FINDER_DIR.data.length = 31 := by decide
    have h2 : ("_finder.py" : String).data.length = 10 := by decide
    have h3 : CONNECTOR_DIR.data.length = 11 := by decide
    have h4 : ("_connector.py" : String).data.length = 13 := by decide
    have h5 : TEMPLATES_DIR.data.length = 12 := by decide
    have h6 : ("_ascii.txt" : String).data.length = 10 := by decide
    refine ⟨?_, ?_, ?_⟩
    · show st.fs (truncatePath (ISSUE_FINDER_DIR ++ "/" ++ strLower a ++ "_finder.py")) = _
      rw [truncatePath_eq (hpath _ _ (by omega))]
    · show st.fs (truncatePath (CONNECTOR_DIR ++ "/" ++ strLower a ++ "_connector.py")) = _
      rw [truncatePath_eq (hpath _ _ (by omega))]
    · show st.fs (truncatePath (TEMPLATES_DIR ++ "/" ++ strLower a ++ "_ascii.txt")) = _
      rw [truncatePath_eq (hpath _ _ (by omega))]

/-- C6 (amended) witness: the amended specification instantiated at a
concrete state and the three-character acronym `HHS`, for which the path
is untruncated and independent of the (empty) file-system twin state. -/
theorem asset_getters_spec_witness :
    (agency_get_issue_finder stW "HHS" = agency_get_issue_finder stW "HHS" ∧
     agency_get_research_connector stW "HHS"
       = agency_get_research_connector stW "HHS" ∧
     agency_get_ascii_art stW "HHS" = agency_get_ascii_art stW "HHS") ∧
    (agency_get_issue_finder stW "HHS"
      = stW.fs (ISSUE_FINDER_DIR ++ "/" ++ strLower "HHS" ++ "_finder.py") ∧
     agency_get_research_connector stW "HHS"
      = stW.fs (CONNECTOR_DIR ++ "/" ++ strLower "HHS" ++ "_connector.py") ∧
     agency_get_ascii_art stW "HHS"
      = stW.fs (TEMPLATES_DIR ++ "/" ++ strLower "HHS" ++ "_ascii.txt")) :=
  ⟨(asset_getters_spec stW "HHS").2.2.2.1 stW rfl,
   (asset_getters_spec stW "HHS").2.2.2.2 (by decide)⟩

end AgencyFFI
